import Mathlib

/-!
Verification of the `ci-rs` build engine and its container-runtime gateway.

The definitions below are a shallow embedding of the Rust sources:
 * `src/core.rs`           — pipeline/step data model,
 * `src/core/build.rs`     — the `Build` state machine (`progress`),
 * `src/docker/container.rs` — `wait_container`'s record translation,
 * `src/docker.rs`         — `process_request`'s status classification,
 * `src/docker/uri.rs`     — request-URI construction,
 * `src/docker/read.rs`    — the JSON-Lines and the multiplexed-frame decoders.

Machine integers (`i64`, `usize`, bytes) are embedded as `Int`/`Nat`; no
operation below can overflow.  Fallible Rust code returns `Except`/`Option`.
Asynchronous gateway calls are modelled by an explicit `Gateway` record of
response oracles, and `Build.progress` additionally returns the list of
gateway calls it issued, so that "no container is created" is expressible.
-/

/-- `nonempty::NonEmpty<α>`: a head element plus a tail list. -/
structure NonEmptyL (α : Type) where
  head : α
  tail : List α
  deriving DecidableEq, Repr

def NonEmptyL.toList {α : Type} (xs : NonEmptyL α) : List α :=
  xs.head :: xs.tail

/-- `core.rs`: `pub struct StepName(pub String)`. -/
structure StepName where
  val : String
  deriving DecidableEq, Repr

/-- `core.rs`: `pub struct Image(pub String)`. -/
structure Image where
  val : String
  deriving DecidableEq, Repr

/-- `core.rs`: one unit of work (`Step`). -/
structure Step where
  name : StepName
  commands : NonEmptyL String
  image : Image
  depends_on : Option (List StepName)
  deriving DecidableEq, Repr

/-- `core.rs`: `pub struct Pipeline { pub steps: NonEmpty<Step> }`. -/
structure Pipeline where
  steps : NonEmptyL Step
  deriving DecidableEq, Repr

/-- `core.rs`: `pub struct ContainerExitCode(pub i64)`; `i64` embedded as `Int`. -/
structure ContainerExitCode where
  code : Int
  deriving DecidableEq, Repr

/-- `core.rs`: per-step outcome. -/
inductive StepResult where
  | StepFailed (code : ContainerExitCode)
  | StepSucceeded
  | StepSkipped
  deriving DecidableEq, Repr

/-- `core.rs`: `impl From<ContainerExitCode> for StepResult`. -/
def StepResult.ofExitCode (value : ContainerExitCode) : StepResult :=
  if value.code = 0 then StepResult.StepSucceeded
  else StepResult.StepFailed (ContainerExitCode.mk value.code)

/-- `core.rs`: terminal build outcome. -/
inductive BuildResult where
  | BuildSucceeded
  | BuildFailed
  deriving DecidableEq, Repr

/-- `core.rs`: `pub struct BuildRunningState { pub step: StepName }`. -/
structure BuildRunningState where
  step : StepName
  deriving DecidableEq, Repr

/-- `core.rs`: the build phase. -/
inductive BuildState where
  | BuildReady
  | BuildRunning (state : BuildRunningState)
  | BuildFinished (result : BuildResult)
  deriving DecidableEq, Repr

/-- `build.rs`: `pub type CompletedSteps = Vec<(StepName, StepResult)>`. -/
abbrev CompletedSteps : Type := List (StepName × StepResult)

/-- Errors of the gateway layer.  `src/docker/errors.rs` is not present under
`src/`; the variants and their fields are taken from the construction and
match sites in the sources that are present (`build.rs`, `container.rs`,
`docker.rs`, `read.rs`) and from the error taxonomy in spec section 7:
wait-reported failure, server error, timeout, JSON data error, and the
serde-error passthrough used for other JSON failures (`e.into()`). -/
inductive Error where
  | DockerContainerWaitError (error : String) (code : Int)
  | DockerResponseServerError (status_code : Nat) (message : String)
  | RequestTimeoutError
  | JsonDataError (message : String) (column : Nat) (contents : String)
  | JsonSerdeError (message : String)
  deriving DecidableEq, Repr

/-- `bollard_stubs::models::ContainerWaitResponseError { message: Option<String> }`. -/
structure ContainerWaitResponseError where
  message : Option String
  deriving DecidableEq, Repr

/-- `bollard_stubs::models::ContainerWaitResponse { status_code: i64, error }`. -/
structure ContainerWaitResponse where
  status_code : Int
  error : Option ContainerWaitResponseError
  deriving DecidableEq, Repr

/-- `bollard_stubs::models::ContainerCreateResponse`; only `id` is read. -/
structure ContainerCreateResponse where
  id : String
  deriving DecidableEq, Repr

/-- `container.rs`: `CreateContainerOptions { name, platform }` at the one
text instantiation the program uses. -/
structure CreateContainerOptionsS where
  name : String
  platform : Option String
  deriving DecidableEq, Repr

/-- `container.rs`: `CreateContainerConfig { image, tty, labels, entry_point, cmd }`;
the `HashMap` of labels is embedded as an association list. -/
structure CreateContainerConfigS where
  image : String
  tty : Bool
  labels : List (String × String)
  entry_point : List String
  cmd : String
  deriving DecidableEq, Repr

/-- `container.rs`: `WaitContainerOptions { condition }`. -/
structure WaitContainerOptionsS where
  condition : String
  deriving DecidableEq, Repr

/-- One HTTP call issued to the container runtime by `Build::progress`. -/
inductive GatewayCall where
  | createContainer (options : CreateContainerOptionsS) (config : CreateContainerConfigS)
  | startContainer (id : String)
  | waitContainer (id : String) (condition : String)
  deriving DecidableEq, Repr

/-- The container-runtime connection (`Docker`), abstracted as response
oracles: what `create_container` and `start_container` return, and the raw
decoded record stream that `wait_container`'s translation (`wait_container_map`)
is applied to. -/
structure Gateway where
  createResult : CreateContainerOptionsS → CreateContainerConfigS → Except Error ContainerCreateResponse
  startResult : String → Except Error Unit
  waitRaw : (id : String) → (condition : String) → List (Except Error ContainerWaitResponse)

/-- `container.rs` lines 115–131: the per-record translation inside
`Docker::wait_container`.  Both translating arms are guarded by `code > 0`;
every record not matched (guard failed, or `error = Some` with no message)
falls through `v => v` unchanged. -/
def wait_container_map (r : Except Error ContainerWaitResponse) :
    Except Error ContainerWaitResponse :=
  match r with
  | Except.ok { status_code := code, error := some { message := some err } } =>
    if code > 0 then Except.error (Error.DockerContainerWaitError err code)
    else Except.ok { status_code := code, error := some { message := some err } }
  | Except.ok { status_code := code, error := none } =>
    if code > 0 then Except.error (Error.DockerContainerWaitError "" code)
    else Except.ok { status_code := code, error := none }
  | v => v

/-- `container.rs`: `Docker::wait_container` — the raw decoded stream mapped
through `wait_container_map`. -/
def wait_container (gw : Gateway) (container_name_or_id : String)
    (options : WaitContainerOptionsS) : List (Except Error ContainerWaitResponse) :=
  (gw.waitRaw container_name_or_id options.condition).map wait_container_map

/-- `build.rs`: the `Build` struct. -/
structure Build where
  pipeline : Pipeline
  state : BuildState
  completed_steps : CompletedSteps
  fail_through : Bool

/-- `build.rs`: `Build::new` (the `derive_new` constructor; `fail_through`
defaults to `false`). -/
def Build.new (pipeline : Pipeline) (state : BuildState)
    (completed_steps : CompletedSteps) : Build :=
  { pipeline := pipeline, state := state, completed_steps := completed_steps,
    fail_through := false }

/-- `build.rs` lines 37–45: `Build::find_completed_steps` — is a name present
in the ledger (`find(..).is_some()` on string equality of the names)? -/
def findCompletedSteps (completed_steps : CompletedSteps)
    (step_name_to_match : StepName) : Bool :=
  (completed_steps.find? (fun p => p.1.val == step_name_to_match.val)).isSome

/-- `build.rs` lines 46–50: `Build::next_step` — the first pipeline step whose
name is not yet in the ledger. -/
def Build.nextStep (b : Build) : Option Step :=
  b.pipeline.steps.toList.find?
    (fun step => findCompletedSteps b.completed_steps step.name == false)

/-- `build.rs` lines 137–158: `Build::has_next_step`.  The `depends_on`
inspection is dead: both branches return `Ok(step)` (the gating code is
commented out in the source). -/
def Build.hasNextStep (b : Build) : Except BuildResult Step :=
  match b.nextStep with
  | some step =>
    match step.depends_on with
    | some _ => Except.ok step
    | none => Except.ok step
  | none => Except.error BuildResult.BuildSucceeded

/-- The `CreateContainerOptions::new(step.name.clone().0, None)` argument
built in `Build::progress`. -/
def stepCreateOptions (step : Step) : CreateContainerOptionsS :=
  { name := step.name.val, platform := none }

/-- The `CreateContainerConfig::new(..)` argument built in `Build::progress`:
image, `tty = true`, the `nova` marker label, a fixed `/bin/sh -c` entrypoint,
and the space-joined command list. -/
def stepCreateConfig (step : Step) : CreateContainerConfigS :=
  { image := step.image.val
    tty := true
    labels := [("nova", "")]
    entry_point := ["/bin/sh", "-c"]
    cmd := String.intercalate " " step.commands.toList }

/-- `build.rs` lines 163–185: the closure passed to `for_each` inside
`Build::handle_running_state`, applied to one stream item. -/
def handleRunningStep (stepName : StepName) (b : Build)
    (item : Except Error ContainerWaitResponse) : Build :=
  match item with
  | Except.ok res =>
    { b with state := BuildState.BuildReady,
             completed_steps := b.completed_steps ++
               [(stepName, StepResult.ofExitCode (ContainerExitCode.mk res.status_code))] }
  | Except.error (Error.DockerContainerWaitError _ code) =>
    { b with fail_through := true,
             state := BuildState.BuildReady,
             completed_steps := b.completed_steps ++
               [(stepName, StepResult.ofExitCode (ContainerExitCode.mk code))] }
  | Except.error _ =>
    { b with state := BuildState.BuildFinished BuildResult.BuildFailed }

/-- `build.rs` lines 159–187: `Build::handle_running_state` — `for_each` over
the whole wait stream, i.e. a left fold of `handleRunningStep`. -/
def handleRunningState (b : Build) (wait : List (Except Error ContainerWaitResponse))
    (state : BuildRunningState) : Build :=
  wait.foldl (handleRunningStep state.step) b

/-- `build.rs` lines 66–135: `Build::progress`.  The returned pair is the
updated build and the list of gateway calls the invocation issued; `none`
models the `todo!()` panic of the `BuildFinished` arm.  (The initial
`completed_steps.reserve(..)` has no observable effect.) -/
def Build.progress (b : Build) (gw : Gateway) :
    Option (Build × List GatewayCall) :=
  match b.state with
  | BuildState.BuildReady =>
    match b.hasNextStep with
    | Except.ok step =>
      if !b.fail_through then
        let options := stepCreateOptions step
        let config := stepCreateConfig step
        match gw.createResult options config with
        | Except.ok container =>
          match gw.startResult container.id with
          | Except.ok _ =>
            some ({ b with state := BuildState.BuildRunning { step := step.name } },
                  [GatewayCall.createContainer options config,
                   GatewayCall.startContainer container.id])
          | Except.error _ =>
            some ({ b with state := BuildState.BuildFinished BuildResult.BuildFailed },
                  [GatewayCall.createContainer options config,
                   GatewayCall.startContainer container.id])
        | Except.error _ =>
          some ({ b with state := BuildState.BuildFinished BuildResult.BuildFailed },
                [GatewayCall.createContainer options config])
      else
        some ({ b with
                completed_steps := b.completed_steps ++ [(step.name, StepResult.StepSkipped)],
                state := BuildState.BuildReady }, [])
    | Except.error res =>
      some ({ b with state := BuildState.BuildFinished res }, [])
  | BuildState.BuildRunning state =>
    some (handleRunningState b
            (wait_container gw state.step.val { condition := "not-running" }) state,
          [GatewayCall.waitContainer state.step.val "not-running"])
  | BuildState.BuildFinished _ => none

/-- The names recorded in a ledger, in order. -/
def ledgerKeys (cs : CompletedSteps) : List String :=
  cs.map (fun p => p.1.val)

/-- The step-selection rule in the spec's words: the first step in pipeline
order whose name is not yet present in the ledger (dependency edges are not
consulted).  Stated independently of `Build.nextStep` so the two can be
compared. -/
def specNextStep (b : Build) : Option Step :=
  b.pipeline.steps.toList.find?
    (fun step => !(ledgerKeys b.completed_steps).contains step.name.val)

/-! ### A model of `serde_json` parsing

`JsonLineDecoder<T>` and `process_request` both consult `serde_json`, whose
errors are classified by category: data errors (`is_data`), end-of-input
errors (`is_eof`), and syntax errors.  `SerdeRes` is that result shape; the
concrete parser below models `serde_json`'s JSON grammar (values `null`,
booleans, numbers, strings with escapes, arrays, objects; unescaped control
characters in strings are syntax errors; truncated input is an EOF error;
trailing non-whitespace is a syntax error).  Error message texts and column
numbers are simplified stand-ins for `serde_json`'s; no theorem depends on
them.  `serde_json`'s acceptance of a positional JSON array for a derived
struct is a corner the program never relies on and is not modelled. -/

/-- Result of a `serde_json` deserialization attempt, by error category. -/
inductive SerdeRes (T : Type) where
  | ok (t : T)
  | dataErr (message : String) (column : Nat)
  | eofErr (message : String)
  | synErr (message : String)
  deriving DecidableEq, Repr

/-- Monadic chaining that propagates the three error categories. -/
def serdeErrAs {α β : Type} (r : SerdeRes α) (f : α → SerdeRes β) : SerdeRes β :=
  match r with
  | SerdeRes.ok a => f a
  | SerdeRes.dataErr m c => SerdeRes.dataErr m c
  | SerdeRes.eofErr m => SerdeRes.eofErr m
  | SerdeRes.synErr m => SerdeRes.synErr m

/-- A JSON value (numbers keep their lexeme; the program never computes with
them at this layer). -/
inductive Json where
  | null
  | bool (b : Bool)
  | num (lexeme : String)
  | str (s : String)
  | arr (items : List Json)
  | obj (fields : List (String × Json))

/-- JSON insignificant whitespace. -/
def jsonWs (c : Char) : Bool :=
  c = ' ' || c = '\n' || c = '\t' || c = '\r'

def skipWs (l : List Char) : List Char :=
  l.dropWhile jsonWs

def isDigitCh (c : Char) : Bool :=
  '0' ≤ c && c ≤ '9'

def isHexCh (c : Char) : Bool :=
  isDigitCh c || ('a' ≤ c && c ≤ 'f') || ('A' ≤ c && c ≤ 'F')

def hexChVal (c : Char) : Nat :=
  if isDigitCh c then c.toNat - 48
  else if 'a' ≤ c && c ≤ 'f' then c.toNat - 87
  else c.toNat - 55

/-- Parse the body of a JSON string after the opening quote.  Unescaped
control characters are syntax errors; running out of input is an EOF error. -/
def parseStringBody (acc : List Char) : List Char → SerdeRes (String × List Char)
  | [] => SerdeRes.eofErr "EOF while parsing a string"
  | c :: rest =>
    if c = '"' then SerdeRes.ok (String.mk acc.reverse, rest)
    else if c = '\\' then
      match rest with
      | [] => SerdeRes.eofErr "EOF while parsing a string"
      | e :: rest2 =>
        if e = '"' then parseStringBody ('"' :: acc) rest2
        else if e = '\\' then parseStringBody ('\\' :: acc) rest2
        else if e = '/' then parseStringBody ('/' :: acc) rest2
        else if e = 'b' then parseStringBody (Char.ofNat 8 :: acc) rest2
        else if e = 'f' then parseStringBody (Char.ofNat 12 :: acc) rest2
        else if e = 'n' then parseStringBody ('\n' :: acc) rest2
        else if e = 'r' then parseStringBody ('\r' :: acc) rest2
        else if e = 't' then parseStringBody ('\t' :: acc) rest2
        else if e = 'u' then
          match rest2 with
          | h1 :: h2 :: h3 :: h4 :: rest3 =>
            if isHexCh h1 && isHexCh h2 && isHexCh h3 && isHexCh h4 then
              parseStringBody
                (Char.ofNat (((hexChVal h1 * 16 + hexChVal h2) * 16 + hexChVal h3) * 16
                             + hexChVal h4) :: acc) rest3
            else SerdeRes.synErr "invalid unicode escape"
          | _ => SerdeRes.eofErr "EOF while parsing a string"
        else SerdeRes.synErr "invalid escape"
    else if c.toNat < 32 then
      SerdeRes.synErr "control character found while parsing a string"
    else parseStringBody (c :: acc) rest

def takeDigits (l : List Char) : List Char × List Char :=
  (l.takeWhile isDigitCh, l.dropWhile isDigitCh)

/-- Parse the exponent part of a number (if present) and finish the lexeme. -/
def parseExpPart (mant : List Char) (l : List Char) : SerdeRes (List Char × List Char) :=
  match l with
  | c :: rest =>
    if c = 'e' || c = 'E' then
      match rest with
      | [] => SerdeRes.eofErr "EOF while parsing a value"
      | s :: rest2 =>
        if s = '+' || s = '-' then
          match takeDigits rest2 with
          | ([], []) => SerdeRes.eofErr "EOF while parsing a value"
          | ([], _) => SerdeRes.synErr "invalid number"
          | (ds, rest3) => SerdeRes.ok (mant ++ c :: s :: ds, rest3)
        else
          match takeDigits rest with
          | ([], _) => SerdeRes.synErr "invalid number"
          | (ds, rest3) => SerdeRes.ok (mant ++ c :: ds, rest3)
    else SerdeRes.ok (mant, l)
  | [] => SerdeRes.ok (mant, [])

/-- Parse the fraction part of a number (if present), then the exponent. -/
def parseFracPart (intPart : List Char) (l : List Char) : SerdeRes (List Char × List Char) :=
  match l with
  | c :: rest =>
    if c = '.' then
      match takeDigits rest with
      | ([], []) => SerdeRes.eofErr "EOF while parsing a value"
      | ([], _) => SerdeRes.synErr "invalid number"
      | (ds, rest2) => parseExpPart (intPart ++ '.' :: ds) rest2
    else parseExpPart intPart l
  | [] => parseExpPart intPart []

/-- Parse the digits of a number after an optional leading minus sign. -/
def parseNumAfterSign (l : List Char) : SerdeRes (List Char × List Char) :=
  match l with
  | [] => SerdeRes.eofErr "EOF while parsing a value"
  | c :: rest =>
    if c = '0' then parseFracPart ['0'] rest
    else if isDigitCh c then
      match takeDigits (c :: rest) with
      | (ds, rest') => parseFracPart ds rest'
    else SerdeRes.synErr "invalid number"

/-- Match the tail of a keyword literal (`null`, `true`, `false`). -/
def litRest (lit : List Char) (l : List Char) : SerdeRes (List Char) :=
  match lit, l with
  | [], rest => SerdeRes.ok rest
  | _ :: _, [] => SerdeRes.eofErr "EOF while parsing a value"
  | c :: lit', x :: l' =>
    if x = c then litRest lit' l' else SerdeRes.synErr "expected ident"

mutual

/-- Parse one JSON value.  The fuel argument only bounds recursion depth; the
top-level entry point supplies enough for any input. -/
def parseVal : Nat → List Char → SerdeRes (Json × List Char)
  | 0, _ => SerdeRes.synErr "recursion limit exceeded"
  | Nat.succ fuel, l =>
    match skipWs l with
    | [] => SerdeRes.eofErr "EOF while parsing a value"
    | c :: rest =>
      if c = '"' then
        serdeErrAs (parseStringBody [] rest)
          (fun p => SerdeRes.ok (Json.str p.1, p.2))
      else if c = 'n' then
        serdeErrAs (litRest ['u', 'l', 'l'] rest)
          (fun r => SerdeRes.ok (Json.null, r))
      else if c = 't' then
        serdeErrAs (litRest ['r', 'u', 'e'] rest)
          (fun r => SerdeRes.ok (Json.bool true, r))
      else if c = 'f' then
        serdeErrAs (litRest ['a', 'l', 's', 'e'] rest)
          (fun r => SerdeRes.ok (Json.bool false, r))
      else if c = '-' then
        serdeErrAs (parseNumAfterSign rest)
          (fun p => SerdeRes.ok (Json.num (String.mk ('-' :: p.1)), p.2))
      else if isDigitCh c then
        serdeErrAs (parseNumAfterSign (c :: rest))
          (fun p => SerdeRes.ok (Json.num (String.mk p.1), p.2))
      else if c = '[' then parseArrFirst fuel rest
      else if c.toNat = 123 then parseObjPair fuel rest []
      else SerdeRes.synErr "expected value"

/-- After `[`: either an immediately closing bracket or a first element. -/
def parseArrFirst : Nat → List Char → SerdeRes (Json × List Char)
  | 0, _ => SerdeRes.synErr "recursion limit exceeded"
  | Nat.succ fuel, l =>
    match skipWs l with
    | [] => SerdeRes.eofErr "EOF while parsing a list"
    | c :: rest =>
      if c = ']' then SerdeRes.ok (Json.arr [], rest)
      else
        serdeErrAs (parseVal fuel (c :: rest))
          (fun p => parseArrAfter fuel p.2 [p.1])

/-- After an array element: a separator or the closing bracket. -/
def parseArrAfter : Nat → List Char → List Json → SerdeRes (Json × List Char)
  | 0, _, _ => SerdeRes.synErr "recursion limit exceeded"
  | Nat.succ fuel, l, acc =>
    match skipWs l with
    | [] => SerdeRes.eofErr "EOF while parsing a list"
    | c :: rest =>
      if c = ']' then SerdeRes.ok (Json.arr acc, rest)
      else if c = ',' then
        serdeErrAs (parseVal fuel rest)
          (fun p => parseArrAfter fuel p.2 (acc ++ [p.1]))
      else SerdeRes.synErr "expected comma or closing bracket"

/-- After `{` (or a separating comma): a key/value pair, or — only for an
empty object — the closing brace. -/
def parseObjPair : Nat → List Char → List (String × Json) → SerdeRes (Json × List Char)
  | 0, _, _ => SerdeRes.synErr "recursion limit exceeded"
  | Nat.succ fuel, l, acc =>
    match skipWs l with
    | [] => SerdeRes.eofErr "EOF while parsing an object"
    | c :: rest =>
      if c.toNat = 125 && acc.isEmpty then SerdeRes.ok (Json.obj [], rest)
      else if c = '"' then
        serdeErrAs (parseStringBody [] rest) (fun kp =>
          match skipWs kp.2 with
          | [] => SerdeRes.eofErr "EOF while parsing an object"
          | c2 :: rest2 =>
            if c2 = ':' then
              serdeErrAs (parseVal fuel rest2)
                (fun vp => parseObjAfter fuel vp.2 (acc ++ [(kp.1, vp.1)]))
            else SerdeRes.synErr "expected colon")
      else SerdeRes.synErr "key must be a string"

/-- After an object value: a separator or the closing brace. -/
def parseObjAfter : Nat → List Char → List (String × Json) → SerdeRes (Json × List Char)
  | 0, _, _ => SerdeRes.synErr "recursion limit exceeded"
  | Nat.succ fuel, l, acc =>
    match skipWs l with
    | [] => SerdeRes.eofErr "EOF while parsing an object"
    | c :: rest =>
      if c.toNat = 125 then SerdeRes.ok (Json.obj acc, rest)
      else if c = ',' then parseObjPair fuel rest acc
      else SerdeRes.synErr "expected comma or closing brace"

end

/-- `serde_json::from_str::<Value>`-style whole-input parse: one value, then
only whitespace may remain. -/
def jsonParse (chars : List Char) : SerdeRes Json :=
  serdeErrAs (parseVal (3 * chars.length + 16) chars) (fun p =>
    if (skipWs p.2).isEmpty then SerdeRes.ok p.1
    else SerdeRes.synErr "trailing characters")

/-- `docker.rs`: `struct DockerServerErrorMessage { message: String }` as a
derived `serde` deserializer over a parsed JSON value: an object with a
required string field `message`, other fields ignored; shape mismatches are
data errors (`is_data`). -/
def dockerServerErrorMessageOfJson : Json → SerdeRes String
  | Json.obj fields =>
    match fields.filter (fun p => p.1 == "message") with
    | [] => SerdeRes.dataErr "missing field message" 0
    | [(_, Json.str s)] => SerdeRes.ok s
    | [(_, _)] => SerdeRes.dataErr "invalid type: expected a string" 0
    | _ => SerdeRes.dataErr "duplicate field message" 0
  | _ => SerdeRes.dataErr "invalid type: expected struct DockerServerErrorMessage" 0

/-- `serde_json::from_str::<DockerServerErrorMessage>(contents)` as used by
`Docker::process_request`. -/
def parseDockerServerErrorMessage (s : String) : SerdeRes String :=
  serdeErrAs (jsonParse s.data) dockerServerErrorMessageOfJson

/-- The part of a `hyper` response that `process_request`'s classification
reads: the numeric status and the collected body text
(`Docker::decode_into_string`). -/
structure HttpResponse where
  status : Nat
  body : String
  deriving DecidableEq, Repr

/-- `http::StatusCode::is_success()`: `200 ≤ s < 300`. -/
def statusIsSuccess (s : Nat) : Bool :=
  200 ≤ s && s < 300

/-- `docker.rs` lines 310–315: the error-message computation of
`process_request`'s non-success arm — empty body yields the empty message;
otherwise the body is parsed as `DockerServerErrorMessage`, a data error
falls back to the raw body text (`or_else(.. if e.is_data() ..)`), and any
other parse error propagates through `?`. -/
def serverErrorMessage (contents : String) : Except Error String :=
  if contents = "" then Except.ok ""
  else
    match parseDockerServerErrorMessage contents with
    | SerdeRes.ok msg => Except.ok msg
    | SerdeRes.dataErr _ _ => Except.ok contents
    | SerdeRes.eofErr m => Except.error (Error.JsonSerdeError m)
    | SerdeRes.synErr m => Except.error (Error.JsonSerdeError m)

/-- `docker.rs` lines 288–323: `Docker::process_request`'s status
classification, applied to the outcome of `execute_request` (an `Except`
since request building, transport, and timeout failures propagate via `?`). -/
def process_request (resp : Except Error HttpResponse) : Except Error HttpResponse :=
  match resp with
  | Except.error e => Except.error e
  | Except.ok response =>
    if statusIsSuccess response.status || response.status == 304 then
      Except.ok response
    else if response.status == 101 then
      Except.ok response
    else
      match serverErrorMessage response.body with
      | Except.ok message =>
        Except.error (Error.DockerResponseServerError response.status message)
      | Except.error e => Except.error e

/-! ### Stream decoders (`src/docker/read.rs`)

Byte buffers are `List Nat` (byte values below 256).  Each decoder invocation
returns the decoded item (or `none` for "need more bytes") together with the
buffer that remains for the next invocation, mirroring the `BytesMut`
mutations of the source. -/

/-- `src.iter().position(|b| *b == b'\n')`. -/
def findNewlineIdx : List Nat → Option Nat
  | [] => none
  | b :: rest => if b = 10 then some 0 else (findNewlineIdx rest).map (· + 1)

def charsOfBytes (l : List Nat) : List Char :=
  l.map Char.ofNat

/-- `String::from_utf8_lossy` for the ASCII data the theorems exercise. -/
def lossyString (l : List Nat) : String :=
  String.mk (charsOfBytes l)

/-- `read.rs` lines 114–130: `decode_json_from_slice<T>`.  The serde parse is
a parameter `p`, exactly as the Rust function is generic over
`T: DeserializeOwned`; note the Rust `Ok(json) => Ok(json)` arm infers
`serde_json::from_slice::<Option<T>>`, so `p` produces an `Option T`.
A data error becomes `JsonDataError` (with the lossy slice text), an EOF
error becomes `Ok(None)`, and any other parse error propagates. -/
def decode_json_from_slice {T : Type} (p : List Nat → SerdeRes (Option T))
    (slice : List Nat) : Except Error (Option T) :=
  match p slice with
  | SerdeRes.ok json => Except.ok json
  | SerdeRes.dataErr m col => Except.error (Error.JsonDataError m col (lossyString slice))
  | SerdeRes.eofErr _ => Except.ok none
  | SerdeRes.synErr m => Except.error (Error.JsonSerdeError m)

/-- `read.rs` lines 138–175: `JsonLineDecoder::decode`.  With a newline at
index `pos`, `split_off(pos+1)` leaves bytes `[0, pos]` and the parsed slice
is bytes `[0, pos)`:
 * parse gives `Ok(None)` — `truncate` removes the newline byte, the
   remainder is re-attached, and no item is emitted;
 * parse succeeds — the buffer advances past the newline;
 * parse fails — the error is returned and the remainder, already split off,
   is not re-attached.
With no newline, the whole buffer is parsed; success clears it. -/
def jsonLineDecode {T : Type} (p : List Nat → SerdeRes (Option T))
    (src : List Nat) : Except Error (Option T) × List Nat :=
  let nl_index := findNewlineIdx src
  if src.isEmpty then (Except.ok none, src)
  else
    match nl_index with
    | some pos =>
      let remainder := src.drop (pos + 1)
      let slice := src.take pos
      match decode_json_from_slice p slice with
      | Except.ok none => (Except.ok none, slice ++ remainder)
      | Except.ok (some t) => (Except.ok (some t), remainder)
      | Except.error e => (Except.error e, src.take (pos + 1))
    | none =>
      match decode_json_from_slice p src with
      | Except.ok none => (Except.ok none, src)
      | Except.ok (some t) => (Except.ok (some t), [])
      | Except.error e => (Except.error e, src)

/-- `serde_json::from_slice::<Option<Value>>` over the byte-level model:
the concrete instantiation of the decoder's parse parameter (JSON `null`
deserializes to `None`). -/
def jsonParseOptBytes (l : List Nat) : SerdeRes (Option Json) :=
  match jsonParse (charsOfBytes l) with
  | SerdeRes.ok Json.null => SerdeRes.ok none
  | SerdeRes.ok j => SerdeRes.ok (some j)
  | SerdeRes.dataErr m c => SerdeRes.dataErr m c
  | SerdeRes.eofErr m => SerdeRes.eofErr m
  | SerdeRes.synErr m => SerdeRes.synErr m

/-- `utils.rs`: `LogOutput` (payloads as byte lists). -/
inductive LogOutput where
  | StdErr (message : List Nat)
  | StdOut (message : List Nat)
  | StdIn (message : List Nat)
  | Console (message : List Nat)
  deriving DecidableEq, Repr

/-- `read.rs`: `NewlineLogOutputDecoderState`. -/
inductive NLState where
  | WaitingHeader
  | WaitingPayload (typ : Nat) (length : Nat)
  deriving DecidableEq, Repr

/-- `read.rs`: `NewlineLogOutputDecoder`. -/
structure NewlineLogOutputDecoder where
  state : NLState
  is_tcp : Bool
  deriving DecidableEq, Repr

/-- `read.rs`: `NewlineLogOutputDecoder::new`. -/
def NewlineLogOutputDecoder.new (is_tcp : Bool) : NewlineLogOutputDecoder :=
  { state := NLState.WaitingHeader, is_tcp := is_tcp }

/-- `read.rs` lines 78–94: the `WaitingPayload` arm of the decode loop.
`none` models the `unreachable!()` panic for a stream-type byte above 2
(never stored by the header arm). -/
def nlDecodePayload (d : NewlineLogOutputDecoder) (typ length : Nat)
    (src : List Nat) : Option (NewlineLogOutputDecoder × List Nat × Option LogOutput) :=
  if src.length < length then some (d, src, none)
  else
    let message := src.take length
    let rest := src.drop length
    match typ with
    | 0 => some ({ d with state := NLState.WaitingHeader }, rest, some (LogOutput.StdIn message))
    | 1 => some ({ d with state := NLState.WaitingHeader }, rest, some (LogOutput.StdOut message))
    | 2 => some ({ d with state := NLState.WaitingHeader }, rest, some (LogOutput.StdErr message))
    | _ => none

/-- `read.rs` lines 48–97: `NewlineLogOutputDecoder::decode`.  In
`WaitingHeader`, a first byte above 2 switches to raw passthrough (up to and
including the next newline, or wait); otherwise, with at least 8 bytes
buffered, the header is consumed — stream-type byte, three reserved bytes,
4-byte big-endian length (`u32::from_be_bytes`; four bytes below 256 cannot
overflow) — and the loop continues in `WaitingPayload`. -/
def nlDecode (d : NewlineLogOutputDecoder) (src : List Nat) :
    Option (NewlineLogOutputDecoder × List Nat × Option LogOutput) :=
  match d.state with
  | NLState.WaitingHeader =>
    if (match src with | [] => false | b :: _ => b > 2) then
      if d.is_tcp then some (d, [], some (LogOutput.Console src))
      else
        match findNewlineIdx src with
        | some pos => some (d, src.drop (pos + 1), some (LogOutput.Console (src.take (pos + 1))))
        | none => some (d, src, none)
    else if src.length < 8 then some (d, src, none)
    else
      let header := src.take 8
      let length := ((header.getD 4 0 * 256 + header.getD 5 0) * 256
                     + header.getD 6 0) * 256 + header.getD 7 0
      nlDecodePayload { d with state := NLState.WaitingPayload (header.getD 0 0) length }
        (header.getD 0 0) length (src.drop 8)
  | NLState.WaitingPayload typ length => nlDecodePayload d typ length src

/-! ### URI construction (`src/docker/uri.rs`) -/

/-- `docker.rs`: `ClientType` (only the Unix transport exists). -/
inductive ClientType where
  | Unix
  deriving DecidableEq, Repr

/-- `docker.rs`: `ClientVersion` (fields in source order: minor, major). -/
structure ClientVersion where
  minor_version : Nat
  major_version : Nat
  deriving DecidableEq, Repr

/-- One lowercase hexadecimal digit. -/
def hexDigitCh (n : Nat) : Char :=
  if n < 10 then Char.ofNat (48 + n) else Char.ofNat (87 + n)

/-- `hex::encode` of a string's bytes (lowercase).  The socket paths the
program uses are ASCII, so each character is one byte. -/
def hexEncode (s : String) : String :=
  String.mk (s.data.foldr
    (fun c acc => hexDigitCh (c.toNat / 16) :: hexDigitCh (c.toNat % 16) :: acc) [])

/-- `uri.rs`: `Uri::socket_scheme`. -/
def socket_scheme : ClientType → String
  | ClientType.Unix => "unix"

/-- `uri.rs`: `Uri::socket_host`. -/
def socket_host (socket : String) : ClientType → String
  | ClientType.Unix => hexEncode socket

/-- The parts of a `url::Url` this program observes. -/
structure UrlModel where
  scheme : String
  host : String
  path : String
  query : Option String
  deriving DecidableEq, Repr

/-- Split a character list at the first `://`. -/
def splitScheme : List Char → Option (List Char × List Char)
  | [] => none
  | ':' :: '/' :: '/' :: rest => some ([], rest)
  | c :: rest => (splitScheme rest).map (fun p => (c :: p.1, p.2))

/-- `url::Url::parse` for the `scheme://host/path` strings the caller
constructs (a scheme before the first `://`, a host with no slash, then the
path). -/
def urlParseHier (s : String) : Option UrlModel :=
  match splitScheme s.data with
  | none => none
  | some (sc, rest) =>
    let host := rest.takeWhile (fun c => c != '/')
    let path := rest.drop host.length
    some { scheme := String.mk sc, host := String.mk host,
           path := String.mk path, query := none }

/-- `url::Url::join` for an absolute-path reference, per the WHATWG URL
standard (which the `url` crate implements): a reference beginning with `/`
keeps the base's scheme and host but its path **replaces** the base's path
entirely, and the query is cleared.  Every path this program joins begins
with `/`; other reference shapes are left unmodelled (identity). -/
def urlJoin (base : UrlModel) (reference : String) : UrlModel :=
  match reference.data with
  | '/' :: _ => { base with path := reference, query := none }
  | _ => base

/-- `serde_urlencoded::to_string` for the plain alphanumeric-and-hyphen
keys and values the program uses (no percent-escaping needed). -/
def serializeQuery (pairs : List (String × String)) : String :=
  String.intercalate "&" (pairs.map (fun p => p.1 ++ "=" ++ p.2))

/-- `url::Url::as_str` for the observed parts. -/
def urlToString (u : UrlModel) : String :=
  u.scheme ++ "://" ++ u.host ++ u.path ++
    (match u.query with | some q => "?" ++ q | none => "")

/-- `uri.rs` lines 22–53: `Uri::parse` — format
`{scheme}://{hex host}/v{major}.{minor}{path}`, parse it as a URL, **join the
path again**, then attach the serialized query if present. -/
def Uri.parse (socket : String) (client_type : ClientType) (path : String)
    (query : Option (List (String × String))) (client_version : ClientVersion) :
    Option String :=
  let host_str := socket_scheme client_type ++ "://" ++ socket_host socket client_type
      ++ "/v" ++ toString client_version.major_version ++ "."
      ++ toString client_version.minor_version ++ path
  match urlParseHier host_str with
  | none => none
  | some url =>
    let url := urlJoin url path
    let url := match query with
      | some pairs => { url with query := some (serializeQuery pairs) }
      | none => url
    some (urlToString url)

/-! ### Reachability and the ledger invariant -/

/-- The names recorded in a ledger, in order (the "keys" of
`CompletedSteps`). -/
def BuildInv (b : Build) : Prop :=
  (ledgerKeys b.completed_steps).Nodup ∧
  ∀ s, b.state = BuildState.BuildRunning s → s.step.val ∉ ledgerKeys b.completed_steps

/-- Builds reachable from `Build::new(pipeline, BuildReady, vec![])` (the
initialization in `main.rs`) by repeated `progress` calls against gateways
whose wait streams carry at most one record per call. -/
inductive ReachableSingleWait : Build → Prop where
  | init (pl : Pipeline) :
      ReachableSingleWait (Build.new pl BuildState.BuildReady [])
  | step (b : Build) (gw : Gateway) (b' : Build) (calls : List GatewayCall) :
      ReachableSingleWait b →
      (∀ id cond, (gw.waitRaw id cond).length ≤ 1) →
      b.progress gw = some (b', calls) →
      ReachableSingleWait b'

/-! ### Concrete fixtures for witnesses and counterexamples -/

def stepA : Step :=
  { name := { val := "A" }, commands := { head := "echo hi", tail := [] },
    image := { val := "ubuntu:20.04" }, depends_on := none }

def stepB : Step :=
  { name := { val := "B" }, commands := { head := "ps", tail := [] },
    image := { val := "ubuntu:20.04" }, depends_on := some [{ val := "A" }] }

def pipelineAB : Pipeline :=
  { steps := { head := stepA, tail := [stepB] } }

/-- A fresh build over `pipelineAB`. -/
def buildReady0 : Build :=
  Build.new pipelineAB BuildState.BuildReady []

/-- Ready, skip latch armed, step `A` already recorded as failed. -/
def buildReadyFT : Build :=
  { pipeline := pipelineAB, state := BuildState.BuildReady,
    completed_steps := [({ val := "A" }, StepResult.StepFailed { code := 2 })],
    fail_through := true }

/-- Ready with every step name present in the ledger, including a `Failed`
and a `Skipped` entry. -/
def buildReadyDone : Build :=
  { pipeline := pipelineAB, state := BuildState.BuildReady,
    completed_steps := [({ val := "A" }, StepResult.StepFailed { code := 2 }),
                        ({ val := "B" }, StepResult.StepSkipped)],
    fail_through := true }

/-- Running step `A`, empty ledger. -/
def buildRunningA : Build :=
  { pipeline := pipelineAB, state := BuildState.BuildRunning { step := { val := "A" } },
    completed_steps := [], fail_through := false }

/-- A finished build. -/
def buildFinishedOk : Build :=
  { pipeline := pipelineAB, state := BuildState.BuildFinished BuildResult.BuildSucceeded,
    completed_steps := [], fail_through := false }

def okWaitRecord : ContainerWaitResponse :=
  { status_code := 0, error := none }

/-- A gateway whose wait stream yields two success records in one response. -/
def gwTwoRecords : Gateway :=
  { createResult := fun _ _ => Except.error Error.RequestTimeoutError,
    startResult := fun _ => Except.error Error.RequestTimeoutError,
    waitRaw := fun _ _ => [Except.ok okWaitRecord, Except.ok okWaitRecord] }

/-- A gateway whose create call fails with a server error. -/
def gwCreateFails : Gateway :=
  { createResult := fun _ _ => Except.error (Error.DockerResponseServerError 500 "boom"),
    startResult := fun _ => Except.ok (),
    waitRaw := fun _ _ => [] }

/-- A gateway whose create call succeeds and whose start call fails. -/
def gwStartFails : Gateway :=
  { createResult := fun _ _ => Except.ok { id := "cid" },
    startResult := fun _ => Except.error (Error.DockerResponseServerError 500 "boom"),
    waitRaw := fun _ _ => [] }

/-- Bytes of `{"a":"x<LF>y"}<LF>` — a JSON object whose string field contains
a literal newline byte, newline-terminated. -/
def jlBuf : List Nat :=
  [123, 34, 97, 34, 58, 34, 120, 10, 121, 34, 125, 10]

/-- `jlBuf` after the decoder's first pass: the interior newline (index 7) is
gone. -/
def jlBufAfter : List Nat :=
  [123, 34, 97, 34, 58, 34, 120, 121, 34, 125, 10]

/-- A stdout frame header (type 1, length 5) followed by `hello`. -/
def frameBuf : List Nat :=
  [1, 0, 0, 0, 0, 0, 0, 5, 104, 101, 108, 108, 111]

def helloBytes : List Nat :=
  [104, 101, 108, 108, 111]

/-- Unframed bytes `Abc` (first byte 65) with no newline yet. -/
def rawBufNoNl : List Nat :=
  [65, 98, 99]

/-- Unframed bytes `Abc<LF>def`. -/
def rawBufNl : List Nat :=
  [65, 98, 99, 10, 100, 101, 102]

/-! ### Helper lemmas -/

theorem find?_congr_pred {α : Type} {p q : α → Bool} (h : ∀ a, p a = q a)
    (l : List α) : l.find? p = l.find? q := by
  induction l with
  | nil => rfl
  | cons a l ih =>
    simp only [List.find?, h a]
    cases q a <;> simp [ih]

theorem findCompletedSteps_iff_mem (cs : CompletedSteps) (n : StepName) :
    findCompletedSteps cs n = true ↔ n.val ∈ ledgerKeys cs := by
  unfold findCompletedSteps ledgerKeys
  rw [List.find?_isSome]
  constructor
  · rintro ⟨x, hx, hpx⟩
    exact List.mem_map.mpr ⟨x, hx, beq_iff_eq.mp hpx⟩
  · intro hm
    rcases List.mem_map.mp hm with ⟨x, hx, hval⟩
    exact ⟨x, hx, beq_iff_eq.mpr hval⟩

theorem nextStep_eq_specNextStep (b : Build) : b.nextStep = specNextStep b := by
  unfold Build.nextStep specNextStep
  apply find?_congr_pred
  intro step
  cases hfc : findCompletedSteps b.completed_steps step.name with
  | false =>
    have hnm : step.name.val ∉ ledgerKeys b.completed_steps := by
      intro hm
      have := (findCompletedSteps_iff_mem _ _).mpr hm
      rw [hfc] at this
      cases this
    simp [hnm]
  | true =>
    have hm := (findCompletedSteps_iff_mem _ _).mp hfc
    simp [hm]

theorem hasNextStep_ok_not_mem (b : Build) (step : Step)
    (h : b.hasNextStep = Except.ok step) :
    step.name.val ∉ ledgerKeys b.completed_steps := by
  unfold Build.hasNextStep at h
  cases hn : b.nextStep with
  | none => rw [hn] at h; cases h
  | some st =>
    rw [hn] at h
    have hst : st = step := by
      cases hdep : st.depends_on <;> simp [hdep] at h <;> exact h
    have hp := List.find?_some hn
    intro hmem
    have hfc : findCompletedSteps b.completed_steps st.name = true :=
      (findCompletedSteps_iff_mem _ _).mpr (hst ▸ hmem)
    rw [hfc] at hp
    cases hp

theorem nodup_append_singleton {α : Type} {l : List α} {a : α}
    (hl : l.Nodup) (ha : a ∉ l) : (l ++ [a]).Nodup := by
  simp [List.nodup_append, hl, ha]

/-! ### Claim theorems -/

/-- C1: for a build in `Ready`, `has_next_step` selects exactly the first
step in pipeline order whose name is not present in the ledger, ignoring
`depends_on`; and when every step's name is present (so the spec-side
selection finds nothing), `progress` transitions to `Finished(Succeeded)`
without issuing any gateway call — regardless of `Failed`/`Skipped` ledger
entries, which the statement never constrains. -/
theorem hasNextStep_selects_first_uncompleted (b : Build) (gw : Gateway)
    (h : b.state = BuildState.BuildReady) :
    b.hasNextStep = (match specNextStep b with
                     | some s => Except.ok s
                     | none => Except.error BuildResult.BuildSucceeded) ∧
    (specNextStep b = none →
      b.progress gw =
        some ({ b with state := BuildState.BuildFinished BuildResult.BuildSucceeded }, [])) := by
  have hns := nextStep_eq_specNextStep b
  constructor
  · unfold Build.hasNextStep
    rw [hns]
    cases hsp : specNextStep b with
    | none => simp
    | some s => cases hdep : s.depends_on <;> simp [hdep]
  · intro hnone
    have hhn : b.hasNextStep = Except.error BuildResult.BuildSucceeded := by
      unfold Build.hasNextStep
      rw [hns, hnone]
    simp [Build.progress, h, hhn]

/-- Witness for C1 at a concrete `Ready` build whose ledger holds a `Failed`
and a `Skipped` entry covering all step names. -/
theorem hasNextStep_selects_first_uncompleted_witness :
    buildReadyDone.hasNextStep = (match specNextStep buildReadyDone with
                                  | some s => Except.ok s
                                  | none => Except.error BuildResult.BuildSucceeded) ∧
    (specNextStep buildReadyDone = none →
      buildReadyDone.progress gwTwoRecords =
        some ({ buildReadyDone with
                state := BuildState.BuildFinished BuildResult.BuildSucceeded }, [])) :=
  hasNextStep_selects_first_uncompleted buildReadyDone gwTwoRecords rfl

/-- C2: in `Ready` with the `fail_through` latch set and a next step,
`progress` appends `(step.name, Skipped)`, stays `Ready`, and the call list
is empty — no create or start request reaches the gateway. -/
theorem progress_fail_through_skips_no_calls (b : Build) (gw : Gateway) (step : Step)
    (hs : b.state = BuildState.BuildReady) (hf : b.fail_through = true)
    (hn : b.hasNextStep = Except.ok step) :
    b.progress gw =
      some ({ b with
              completed_steps := b.completed_steps ++ [(step.name, StepResult.StepSkipped)],
              state := BuildState.BuildReady }, []) := by
  simp [Build.progress, hs, hn, hf]

/-- Witness for C2 at a concrete latched build (next step `B`). -/
theorem progress_fail_through_skips_no_calls_witness :
    buildReadyFT.progress gwTwoRecords =
      some ({ buildReadyFT with
              completed_steps :=
                buildReadyFT.completed_steps ++ [(stepB.name, StepResult.StepSkipped)],
              state := BuildState.BuildReady }, []) :=
  progress_fail_through_skips_no_calls buildReadyFT gwTwoRecords stepB rfl rfl rfl

/-- C9: in `Ready` with the latch clear and a next step, a failing
create-container call — or a successful create followed by a failing
start-container call — sends the build to `Finished(Failed)` with the ledger
untouched, and the call list shows no further request. -/
theorem progress_create_or_start_error_finishes_failed (b : Build) (gw : Gateway)
    (step : Step) (e : Error)
    (hs : b.state = BuildState.BuildReady) (hf : b.fail_through = false)
    (hn : b.hasNextStep = Except.ok step) :
    (gw.createResult (stepCreateOptions step) (stepCreateConfig step) = Except.error e →
      b.progress gw =
        some ({ b with state := BuildState.BuildFinished BuildResult.BuildFailed },
              [GatewayCall.createContainer (stepCreateOptions step) (stepCreateConfig step)])) ∧
    (∀ container,
      gw.createResult (stepCreateOptions step) (stepCreateConfig step) = Except.ok container →
      gw.startResult container.id = Except.error e →
      b.progress gw =
        some ({ b with state := BuildState.BuildFinished BuildResult.BuildFailed },
              [GatewayCall.createContainer (stepCreateOptions step) (stepCreateConfig step),
               GatewayCall.startContainer container.id])) := by
  constructor
  · intro hc
    simp [Build.progress, hs, hn, hf, hc]
  · intro container hc hst
    simp [Build.progress, hs, hn, hf, hc, hst]

/-- Witness for C9 at a fresh build: a 500-status create, and a successful
create with a 500-status start. -/
theorem progress_create_or_start_error_finishes_failed_witness :
    (buildReady0.progress gwCreateFails =
      some ({ buildReady0 with state := BuildState.BuildFinished BuildResult.BuildFailed },
            [GatewayCall.createContainer (stepCreateOptions stepA) (stepCreateConfig stepA)])) ∧
    (buildReady0.progress gwStartFails =
      some ({ buildReady0 with state := BuildState.BuildFinished BuildResult.BuildFailed },
            [GatewayCall.createContainer (stepCreateOptions stepA) (stepCreateConfig stepA),
             GatewayCall.startContainer "cid"])) :=
  ⟨(progress_create_or_start_error_finishes_failed buildReady0 gwCreateFails stepA
      (Error.DockerResponseServerError 500 "boom") rfl rfl rfl).1 rfl,
   (progress_create_or_start_error_finishes_failed buildReady0 gwStartFails stepA
      (Error.DockerResponseServerError 500 "boom") rfl rfl rfl).2 { id := "cid" } rfl rfl⟩

/-- C10: `progress` on a `Finished` build hits the `todo!()` arm — modelled
as `none` — for either terminal result and any gateway: neither a no-op
result nor a transition is produced. -/
theorem progress_finished_is_unimplemented (b : Build) (gw : Gateway) (r : BuildResult)
    (h : b.state = BuildState.BuildFinished r) :
    b.progress gw = none := by
  simp [Build.progress, h]

/-- Witness for C10 at a concrete finished build. -/
theorem progress_finished_is_unimplemented_witness :
    buildFinishedOk.progress gwTwoRecords = none :=
  progress_finished_is_unimplemented buildFinishedOk gwTwoRecords BuildResult.BuildSucceeded rfl

/-- C3 counterexample: in `Running(A)`, a wait response stream holding two
records makes one `progress` call append two ledger entries, so the ledger
then holds the step name `A` twice — the claim's "at most one entry per
call, for every wait-response stream, including streams with more than one
record" fails on this input. -/
theorem progress_two_wait_records_duplicate_ledger :
    buildRunningA.progress gwTwoRecords =
      some ({ buildRunningA with
              state := BuildState.BuildReady,
              completed_steps := [({ val := "A" }, StepResult.StepSucceeded),
                                  ({ val := "A" }, StepResult.StepSucceeded)] },
            [GatewayCall.waitContainer "A" "not-running"]) ∧
    ¬ (ledgerKeys [(({ val := "A" } : StepName), StepResult.StepSucceeded),
                   ({ val := "A" }, StepResult.StepSucceeded)]).Nodup :=
  ⟨rfl, by decide⟩

theorem progress_preserves_inv (b : Build) (gw : Gateway) (b' : Build)
    (calls : List GatewayCall)
    (hgw : ∀ id cond, (gw.waitRaw id cond).length ≤ 1)
    (hp : b.progress gw = some (b', calls)) (hi : BuildInv b) :
    BuildInv b' ∧ b'.completed_steps.length ≤ b.completed_steps.length + 1 := by
  obtain ⟨hnd, hrun⟩ := hi
  cases hbs : b.state with
  | BuildFinished r =>
    simp [Build.progress, hbs] at hp
  | BuildReady =>
    cases hn : b.hasNextStep with
    | error res =>
      simp [Build.progress, hbs, hn] at hp
      obtain ⟨hb', -⟩ := hp
      subst hb'
      refine ⟨⟨hnd, ?_⟩, by simp⟩
      intro s hs
      simp at hs
    | ok step =>
      cases hf : b.fail_through with
      | true =>
        simp [Build.progress, hbs, hn, hf] at hp
        obtain ⟨hb', -⟩ := hp
        subst hb'
        refine ⟨⟨?_, ?_⟩, by simp⟩
        · have : ledgerKeys (b.completed_steps ++ [(step.name, StepResult.StepSkipped)]) =
              ledgerKeys b.completed_steps ++ [step.name.val] := by
            simp [ledgerKeys]
          rw [this]
          exact nodup_append_singleton hnd (hasNextStep_ok_not_mem b step hn)
        · intro s hs
          simp at hs
      | false =>
        cases hc : gw.createResult (stepCreateOptions step) (stepCreateConfig step) with
        | error e =>
          simp [Build.progress, hbs, hn, hf, hc] at hp
          obtain ⟨hb', -⟩ := hp
          subst hb'
          refine ⟨⟨hnd, ?_⟩, by simp⟩
          intro s hs
          simp at hs
        | ok container =>
          cases hst : gw.startResult container.id with
          | error e =>
            simp [Build.progress, hbs, hn, hf, hc, hst] at hp
            obtain ⟨hb', -⟩ := hp
            subst hb'
            refine ⟨⟨hnd, ?_⟩, by simp⟩
            intro s hs
            simp at hs
          | ok u =>
            simp [Build.progress, hbs, hn, hf, hc, hst] at hp
            obtain ⟨hb', -⟩ := hp
            subst hb'
            refine ⟨⟨hnd, ?_⟩, by simp⟩
            intro s hs
            simp at hs
            subst hs
            exact hasNextStep_ok_not_mem b step hn
  | BuildRunning s =>
    simp [Build.progress, hbs] at hp
    obtain ⟨hb', -⟩ := hp
    have hlen := hgw s.step.val "not-running"
    have hsmem := hrun s hbs
    cases hr : gw.waitRaw s.step.val "not-running" with
    | nil =>
      simp [handleRunningState, wait_container, hr] at hb'
      subst hb'
      exact ⟨⟨hnd, fun s' hs' => by
        rw [hbs] at hs'
        cases hs'
        exact hsmem⟩, by simp⟩
    | cons x xs =>
      cases xs with
      | cons y ys =>
        rw [hr] at hlen
        simp at hlen
      | nil =>
        simp only [wait_container, hr, List.map, handleRunningState, List.foldl] at hb'
        cases hx : wait_container_map x with
        | ok r =>
          rw [hx] at hb'
          simp [handleRunningStep] at hb'
          subst hb'
          refine ⟨⟨?_, ?_⟩, by simp⟩
          · have : ledgerKeys (b.completed_steps ++
                [(s.step, StepResult.ofExitCode (ContainerExitCode.mk r.status_code))]) =
                ledgerKeys b.completed_steps ++ [s.step.val] := by
              simp [ledgerKeys]
            rw [this]
            exact nodup_append_singleton hnd hsmem
          · intro s' hs'
            simp at hs'
        | error e =>
          rw [hx] at hb'
          cases e with
          | DockerContainerWaitError msg code =>
            simp [handleRunningStep] at hb'
            subst hb'
            refine ⟨⟨?_, ?_⟩, by simp⟩
            · have : ledgerKeys (b.completed_steps ++
                  [(s.step, StepResult.ofExitCode (ContainerExitCode.mk code))]) =
                  ledgerKeys b.completed_steps ++ [s.step.val] := by
                simp [ledgerKeys]
              rw [this]
              exact nodup_append_singleton hnd hsmem
            · intro s' hs'
              simp at hs'
          | DockerResponseServerError sc m =>
            simp [handleRunningStep] at hb'
            subst hb'
            exact ⟨⟨hnd, fun s' hs' => by simp at hs'⟩, by simp⟩
          | RequestTimeoutError =>
            simp [handleRunningStep] at hb'
            subst hb'
            exact ⟨⟨hnd, fun s' hs' => by simp at hs'⟩, by simp⟩
          | JsonDataError m c contents =>
            simp [handleRunningStep] at hb'
            subst hb'
            exact ⟨⟨hnd, fun s' hs' => by simp at hs'⟩, by simp⟩
          | JsonSerdeError m =>
            simp [handleRunningStep] at hb'
            subst hb'
            exact ⟨⟨hnd, fun s' hs' => by simp at hs'⟩, by simp⟩

/-- C3 (amended): provided every wait-response stream yields at most one
record, each `progress` call grows the ledger by at most one entry, and in
every build reachable from a fresh `Build::new` each step name appears at
most once in `CompletedSteps` (and a running step's name is not yet
present).  A multi-record stream instead appends one entry per record (see
the counterexample), so the proviso is necessary. -/
theorem progress_single_record_ledger_nodup (b : Build) (h : ReachableSingleWait b) :
    (ledgerKeys b.completed_steps).Nodup ∧
    (∀ s, b.state = BuildState.BuildRunning s → s.step.val ∉ ledgerKeys b.completed_steps) ∧
    (∀ gw b' calls, (∀ id cond, (gw.waitRaw id cond).length ≤ 1) →
      b.progress gw = some (b', calls) →
      b'.completed_steps.length ≤ b.completed_steps.length + 1) := by
  have hinv : BuildInv b := by
    induction h with
    | init pl =>
      refine ⟨by simp [Build.new, ledgerKeys], ?_⟩
      intro s hs
      simp [Build.new] at hs
    | step b0 gw b1 calls h0 hgw hp ih =>
      exact (progress_preserves_inv b0 gw b1 calls hgw hp ih).1
  exact ⟨hinv.1, hinv.2,
    fun gw b' calls hgw hp => (progress_preserves_inv b gw b' calls hgw hp hinv).2⟩

/-- Witness for C3 (amended) at the fresh build over `pipelineAB`. -/
theorem progress_single_record_ledger_nodup_witness :
    (ledgerKeys buildReady0.completed_steps).Nodup ∧
    (∀ s, buildReady0.state = BuildState.BuildRunning s →
      s.step.val ∉ ledgerKeys buildReady0.completed_steps) ∧
    (∀ gw b' calls, (∀ id cond, (gw.waitRaw id cond).length ≤ 1) →
      buildReady0.progress gw = some (b', calls) →
      b'.completed_steps.length ≤ buildReady0.completed_steps.length + 1) :=
  progress_single_record_ledger_nodup buildReady0 (ReachableSingleWait.init pipelineAB)

/-- C4 counterexample: a record with the *negative* status code `-1` and a
runtime-supplied error message is **not** translated — both translation arms
require `code > 0`, so the record passes through unchanged, against the
claim's "nonzero status code ... is translated". -/
theorem wait_container_negative_code_passes_through :
    wait_container_map
        (Except.ok { status_code := -1, error := some { message := some "boom" } }) =
      Except.ok { status_code := -1, error := some { message := some "boom" } } ∧
    wait_container_map
        (Except.ok { status_code := -1, error := some { message := some "boom" } }) ≠
      Except.error (Error.DockerContainerWaitError "boom" (-1)) :=
  ⟨rfl, fun h => Except.noConfusion h⟩

/-- C4 (amended): for every decoded wait record, a *positive* status code
with a runtime-supplied message becomes `DockerContainerWaitError` carrying
that code and message; a positive status code with no `error` object becomes
the same error with an empty message; every other record — nonpositive
status, or an `error` object without a message — passes through unchanged as
a success item. -/
theorem wait_container_translates_positive_exit (r : ContainerWaitResponse) :
    (∀ msg, r.error = some { message := some msg } → r.status_code > 0 →
      wait_container_map (Except.ok r) =
        Except.error (Error.DockerContainerWaitError msg r.status_code)) ∧
    (r.error = none → r.status_code > 0 →
      wait_container_map (Except.ok r) =
        Except.error (Error.DockerContainerWaitError "" r.status_code)) ∧
    (¬ (r.status_code > 0 ∧
        (r.error = none ∨ ∃ msg, r.error = some { message := some msg })) →
      wait_container_map (Except.ok r) = Except.ok r) := by
  obtain ⟨code, err⟩ := r
  refine ⟨?_, ?_, ?_⟩
  · intro msg herr hpos
    subst herr
    simp [wait_container_map, hpos]
  · intro herr hpos
    subst herr
    simp [wait_container_map, hpos]
  · intro hother
    cases err with
    | none =>
      have hnp : ¬ code > 0 := fun hpos => hother ⟨hpos, Or.inl rfl⟩
      simp [wait_container_map, hnp]
    | some e =>
      obtain ⟨emsg⟩ := e
      cases emsg with
      | none =>
        simp [wait_container_map]
      | some msg =>
        have hnp : ¬ code > 0 := fun hpos => hother ⟨hpos, Or.inr ⟨msg, rfl⟩⟩
        simp [wait_container_map, hnp]

/-- Witness for C4 (amended): the three cases at concrete records. -/
theorem wait_container_translates_positive_exit_witness :
    wait_container_map (Except.ok { status_code := 2, error := some { message := some "oops" } }) =
      Except.error (Error.DockerContainerWaitError "oops" 2) ∧
    wait_container_map (Except.ok { status_code := 3, error := none }) =
      Except.error (Error.DockerContainerWaitError "" 3) ∧
    wait_container_map (Except.ok { status_code := 7, error := some { message := none } }) =
      Except.ok { status_code := 7, error := some { message := none } } :=
  ⟨(wait_container_translates_positive_exit _).1 "oops" rfl (by decide),
   (wait_container_translates_positive_exit _).2.1 rfl (by decide),
   (wait_container_translates_positive_exit _).2.2 (by simp)⟩

/-- C5 counterexample: status 500 with the non-JSON body `bad` — the claim
says the server-error kind with the raw body text `bad` should be produced,
but the syntax error from the body parse propagates instead (`or_else` only
absorbs `is_data` errors), so the result is not a server error at all. -/
theorem process_request_syntax_body_not_server_error :
    process_request (Except.ok { status := 500, body := "bad" }) =
      Except.error (Error.JsonSerdeError "expected value") ∧
    process_request (Except.ok { status := 500, body := "bad" }) ≠
      Except.error (Error.DockerResponseServerError 500 "bad") :=
  ⟨rfl, by
    intro h
    rw [show process_request (Except.ok { status := 500, body := "bad" }) =
          Except.error (Error.JsonSerdeError "expected value") from rfl] at h
    exact Error.noConfusion (Except.error.inj h)⟩

/-- C5 (amended): a response passes through as success exactly for statuses
2xx, 304, or 101.  For any other status the full body text is read: an empty
body yields the server-error kind with an empty message; a body parsing as
`{"message": string}` yields that message; a body that is valid JSON of the
wrong shape (a data error) yields the raw body text; but a body that is not
valid JSON (syntax or end-of-input error) propagates the JSON error instead
of the server-error kind. -/
theorem process_request_classification (resp : HttpResponse) :
    ((200 ≤ resp.status ∧ resp.status < 300) ∨ resp.status = 304 ∨ resp.status = 101 →
      process_request (Except.ok resp) = Except.ok resp) ∧
    (¬ ((200 ≤ resp.status ∧ resp.status < 300) ∨ resp.status = 304 ∨ resp.status = 101) →
      (resp.body = "" →
        process_request (Except.ok resp) =
          Except.error (Error.DockerResponseServerError resp.status "")) ∧
      (∀ msg, resp.body ≠ "" → parseDockerServerErrorMessage resp.body = SerdeRes.ok msg →
        process_request (Except.ok resp) =
          Except.error (Error.DockerResponseServerError resp.status msg)) ∧
      (∀ m c, resp.body ≠ "" → parseDockerServerErrorMessage resp.body = SerdeRes.dataErr m c →
        process_request (Except.ok resp) =
          Except.error (Error.DockerResponseServerError resp.status resp.body)) ∧
      (∀ m, resp.body ≠ "" → parseDockerServerErrorMessage resp.body = SerdeRes.synErr m →
        process_request (Except.ok resp) = Except.error (Error.JsonSerdeError m)) ∧
      (∀ m, resp.body ≠ "" → parseDockerServerErrorMessage resp.body = SerdeRes.eofErr m →
        process_request (Except.ok resp) = Except.error (Error.JsonSerdeError m))) := by
  obtain ⟨st, body⟩ := resp
  simp only at *
  constructor
  · rintro (⟨h2, h3⟩ | h | h)
    · have hb : statusIsSuccess st = true := by
        simp [statusIsSuccess]
        omega
      simp [process_request, hb]
    · subst h
      simp [process_request, statusIsSuccess]
    · subst h
      simp [process_request, statusIsSuccess]
  · intro hns
    have hb1 : statusIsSuccess st = false := by
      simp [statusIsSuccess]
      intro h2
      by_contra h3
      exact hns (Or.inl ⟨h2, by omega⟩)
    have hb2 : st ≠ 304 := fun h => hns (Or.inr (Or.inl h))
    have hb3 : st ≠ 101 := fun h => hns (Or.inr (Or.inr h))
    refine ⟨?_, ?_, ?_, ?_, ?_⟩
    · intro hbody
      subst hbody
      simp [process_request, hb1, hb2, hb3, serverErrorMessage]
    · intro msg hne hparse
      simp [process_request, hb1, hb2, hb3, serverErrorMessage, hne, hparse]
    · intro m c hne hparse
      simp [process_request, hb1, hb2, hb3, serverErrorMessage, hne, hparse]
    · intro m hne hparse
      simp [process_request, hb1, hb2, hb3, serverErrorMessage, hne, hparse]
    · intro m hne hparse
      simp [process_request, hb1, hb2, hb3, serverErrorMessage, hne, hparse]

/-- Witness for C5 (amended): a success status passes through; a 500 status
with body `{"message":"oops"}` surfaces `oops` in the server-error kind. -/
theorem process_request_classification_witness :
    process_request (Except.ok { status := 200, body := "" }) =
      Except.ok { status := 200, body := "" } ∧
    process_request (Except.ok { status := 500, body := "\x7b\"message\":\"oops\"\x7d" }) =
      Except.error (Error.DockerResponseServerError 500 "oops") :=
  ⟨(process_request_classification { status := 200, body := "" }).1
      (Or.inl (by constructor <;> decide)),
   ((process_request_classification { status := 500, body := "\x7b\"message\":\"oops\"\x7d" }).2
      (by rintro (⟨h2, h3⟩ | h | h) <;> simp_all)).2.1 "oops" (by decide) rfl⟩

/-- C6: evaluating `Uri::parse` at socket `/var/run/docker.sock`, version
1.42, path `/containers/create`: the authority is indeed the hex encoding of
the socket path, but the produced path is `/containers/create` — the
`url.join(path)` call resolves the absolute-path reference against the base,
which *replaces* the `/v1.42`-prefixed path the format string had just
built, so the claimed `/v1.42` prefix is absent. -/
theorem uri_parse_hex_authority_drops_version_prefix :
    Uri.parse "/var/run/docker.sock" ClientType.Unix "/containers/create" none
        { minor_version := 42, major_version := 1 } =
      some ("unix://" ++ hexEncode "/var/run/docker.sock" ++ "/containers/create") ∧
    hexEncode "/var/run/docker.sock" = "2f7661722f72756e2f646f636b65722e736f636b" ∧
    Uri.parse "/var/run/docker.sock" ClientType.Unix "/containers/create" none
        { minor_version := 42, major_version := 1 } ≠
      some ("unix://2f7661722f72756e2f646f636b65722e736f636b/v1.42/containers/create") := by
  refine ⟨by decide, by decide, by decide⟩

/-- C7 counterexample: feeding the bytes of the newline-terminated value
whose string field contains a literal newline (`jlBuf`).  The first call
emits nothing but does **not** leave the buffer unchanged: the interior
newline byte is removed.  The second call then decodes one value whose
string field is `xy` — the interior newline has been deleted, so the
original value is not decoded "exactly". -/
theorem json_line_decoder_alters_buffer_and_value :
    (jsonLineDecode jsonParseOptBytes jlBuf).2 ≠ jlBuf ∧
    jsonLineDecode jsonParseOptBytes jlBuf = (Except.ok none, jlBufAfter) ∧
    jsonLineDecode jsonParseOptBytes jlBufAfter =
      (Except.ok (some (Json.obj [("a", Json.str "xy")])), []) :=
  ⟨by decide, rfl, rfl⟩

/-- C7 (amended): whenever the bytes before the first newline fail to parse
only because the input ended mid-value (an EOF-category error), the decoder
emits nothing and consumes nothing **except the newline byte itself**, which
it removes from the buffer; consequently a value carrying a literal newline
inside a string field is eventually decoded as a single value — never split
— but with that interior newline byte deleted. -/
theorem json_line_decode_eof_removes_newline {T : Type}
    (p : List Nat → SerdeRes (Option T)) (src : List Nat) (pos : Nat) (msg : String)
    (hnl : findNewlineIdx src = some pos)
    (hp : p (src.take pos) = SerdeRes.eofErr msg) :
    jsonLineDecode p src = (Except.ok none, src.take pos ++ src.drop (pos + 1)) := by
  have hne : src.isEmpty = false := by
    cases src with
    | nil => simp [findNewlineIdx] at hnl
    | cons b l => rfl
  simp [jsonLineDecode, hne, hnl, decode_json_from_slice, hp]

/-- Witness for C7 (amended) at the concrete buffer `jlBuf` (first newline at
index 7, prefix `{"a":"x` ends inside a string). -/
theorem json_line_decode_eof_removes_newline_witness :
    jsonLineDecode jsonParseOptBytes jlBuf =
      (Except.ok none, jlBuf.take 7 ++ jlBuf.drop 8) :=
  json_line_decode_eof_removes_newline jsonParseOptBytes jlBuf 7
    "EOF while parsing a string" rfl rfl

/-- C8: the multiplexed frame decoder on `[1,0,0,0,0,0,0,5] ++ hello` emits
exactly one stdout item `hello` (8-byte header: stream-type byte 1, three
reserved bytes, big-endian length 5) and leaves an empty buffer (a further
call yields nothing); on unframed input starting with byte 65 it waits until
a newline is buffered and then emits exactly one console item spanning up to
and including that newline. -/
theorem newline_log_output_decoder_frames :
    nlDecode (NewlineLogOutputDecoder.new false) frameBuf =
      some (NewlineLogOutputDecoder.new false, [], some (LogOutput.StdOut helloBytes)) ∧
    nlDecode (NewlineLogOutputDecoder.new false) [] =
      some (NewlineLogOutputDecoder.new false, [], none) ∧
    nlDecode (NewlineLogOutputDecoder.new false) rawBufNoNl =
      some (NewlineLogOutputDecoder.new false, rawBufNoNl, none) ∧
    nlDecode (NewlineLogOutputDecoder.new false) rawBufNl =
      some (NewlineLogOutputDecoder.new false, [100, 101, 102],
            some (LogOutput.Console [65, 98, 99, 10])) :=
  ⟨rfl, rfl, rfl, rfl⟩
